import Mathlib

/-!
A shallow embedding of `src/process.py` (the static-library merger of
cjbind/libclang-static) and proofs about it.

Pure string/path manipulations are embedded as Lean functions on `List Char`
(and wrapped for `String`).  The orchestration (`StaticLibraryMerger`'s
methods and `main`) is embedded as functions that, given an environment
describing the outside world (success of external commands, results of
filesystem globs, `cygpath` output, ...), return the list of side-effect
events performed, in order, together with an `Except` result mirroring
Python's exception flow.
-/

namespace LibclangStatic

/-! ## Pure string helpers for `_get_stem` (`src/process.py` lines 89-93)

Python's `str(path).replace('\\', '/')` is `List.map winSep`;
`.split('/')[-1]` is the run of characters after the last `'/'`, i.e.
`basenameL`; `.split('.')[0]` is `takeWhile (· != '.')`.
`pathlib.PurePath.stem` removes the final suffix of the name: with
`i = name.rfind('.')`, the stem is `name[:i]` when `0 < i < len(name) - 1`
and the whole name otherwise; `pyStemL` expresses the same through the
reversed list (the characters after the last dot are
`reverse.takeWhile (· != '.')`).
-/

/-- Python's `str.startswith`, as a prefix test on the character list. -/
def startsWithL (s pre : String) : Bool := pre.data.isPrefixOf s.data

/-- Python's `str.endswith`, as a suffix test on the character list. -/
def endsWithL (s suf : String) : Bool := suf.data.isSuffixOf s.data

def winSep (c : Char) : Char := if c = '\\' then '/' else c

def basenameL (l : List Char) : List Char :=
  (l.reverse.takeWhile (fun c => c != '/')).reverse

def winStemL (l : List Char) : List Char :=
  l.takeWhile (fun c => c != '.')

def pyStemL (l : List Char) : List Char :=
  match l.reverse.dropWhile (fun c => c != '.') with
  | [] => l
  | _ :: preRev =>
    if preRev = [] ∨ l.reverse.takeWhile (fun c => c != '.') = [] then l
    else preRev.reverse

/-- `pathlib.Path(p).stem`: the stem of the final path component. -/
def pyStem (s : String) : String := String.mk (pyStemL (basenameL s.data))

/-- `StaticLibraryMerger._get_stem` (lines 89-93): `path.stem` off Windows,
`str(path).replace('\\','/').split('/')[-1].split('.')[0]` on Windows. -/
def get_stem (system : String) (p : String) : String :=
  if system ≠ "Windows" then pyStem p
  else String.mk (winStemL (basenameL (p.data.map winSep)))

/-! ## Platform resolution (`__init__`, `_get_obj_ext`, `_get_ar`,
`_get_ar_command`, `_to_win_path`) -/

/-- `self.system = platform.system()` normalized: an MSYS-reported name
becomes `Windows` (lines 25-27). -/
def normalizeSystem (s : String) : String :=
  if startsWithL s "MSYS" then "Windows" else s

/-- `_get_obj_ext` (lines 34-36). -/
def get_obj_ext (system : String) : String :=
  if system = "Windows" then ".obj" else ".o"

/-- The exceptions the script can raise. -/
inductive Err where
  | invalidInstallDir
  | unsupportedSystem (system : String)
  | stdLibNotFound
  | cygpathFailed (path : String)
  | cmdFailed (cmd : List String)
  | noObjects
  | noneStem
  deriving DecidableEq, Repr

def errMsg : Err → String
  | Err.invalidInstallDir => "Invalid LLVM installation directory"
  | Err.unsupportedSystem s => "Unsupported system: " ++ s
  | Err.stdLibNotFound => "libstdc++.a not found"
  | Err.cygpathFailed p => "Windows path conversion failed: " ++ p
  | Err.cmdFailed _ => "Command failed"
  | Err.noObjects => "No objects to merge"
  | Err.noneStem => "NoneType has no stem"

/-- The outside world of one run: results of the external processes and
filesystem queries the script performs.  `scan` is the result of
`self.tmpdir.rglob('*' + obj_ext)` after all extractions; `libFiles` the
listing of `<llvm-install-dir>/lib`. -/
structure Env where
  runOk : List String → Option String → Bool
  cygpath : String → Except Unit String
  linuxStdLib : Option String
  winStdLibExists : String → Bool
  libFiles : List String
  scan : List String
  outputExists : Bool
  tmpName : String
  tmpDir : String

/-- `_to_win_path` (lines 55-69): identity off Windows, `cygpath -w` on
Windows, a `CalledProcessError` re-raised on failure. -/
def to_win_path (env : Env) (system : String) (p : String) : Except Err String :=
  if system ≠ "Windows" then Except.ok p
  else
    match env.cygpath p with
    | Except.ok out => Except.ok out
    | Except.error _ => Except.error (Err.cygpathFailed p)

/-- `_get_ar` (lines 38-43). -/
def get_ar (env : Env) (system : String) : Except Err String :=
  if system = "Windows" then to_win_path env system "/mingw64/bin/ar.exe"
  else Except.ok "ar"

/-- `_get_ar_command` (lines 45-53). -/
def get_ar_command (env : Env) (system : String) : Except Err (List String) :=
  if system = "Darwin" then
    match get_ar env system with
    | Except.error e => Except.error e
    | Except.ok a => Except.ok [a, "-qcT"]
  else if system = "Windows" then
    match get_ar env system with
    | Except.error e => Except.error e
    | Except.ok a => Except.ok [a, "-rcs"]
  else if system = "Linux" then
    match get_ar env system with
    | Except.error e => Except.error e
    | Except.ok a => Except.ok [a, "-rcs"]
  else Except.error (Err.unsupportedSystem system)

/-- The state `__init__` (lines 15-32) builds. -/
structure Merger where
  system : String
  obj_ext : String
  ar_cmd : List String
  output_lib : String
  llvm_dir : String
  deriving DecidableEq, Repr

/-- `StaticLibraryMerger.__init__` (lines 15-32): validate the install
directory, normalize the detected system, compute extension and archiver
command (raising `Unsupported system` off Linux/Windows/Darwin). -/
def initMerger (env : Env) (system0 : String) (llvmDirValid : Bool)
    (output llvmDir : String) : Except Err Merger :=
  if llvmDirValid = false then Except.error Err.invalidInstallDir
  else
    match get_ar_command env (normalizeSystem system0) with
    | Except.error e => Except.error e
    | Except.ok cmd =>
      Except.ok ⟨normalizeSystem system0, get_obj_ext (normalizeSystem system0),
        cmd, output, llvmDir⟩

/-! ## Side-effect events and the orchestration -/

/-- The observable side effects of a run, in program order. -/
inductive Event where
  | mkTempDir (path : String)
  | rmTempDir (path : String)
  | mkdir (path : String)
  | mkdirParent (path : String)
  | unlink (path : String)
  | run (cmd : List String) (cwd : Option String)
  | writeTemp (name content : String)
  | removeTemp (name : String)
  | warn (msg : String)
  deriving DecidableEq, Repr

/-- `_run_command` (lines 71-87): log, invoke the subprocess, re-raise its
`CalledProcessError` on a non-zero exit. -/
def run_command (env : Env) (cmd : List String) (cwd : Option String) :
    List Event × Except Err Unit :=
  ([Event.run cmd cwd],
   if env.runOk cmd cwd then Except.ok () else Except.error (Err.cmdFailed cmd))

/-- The path of an archive found by `self.llvm_install_dir.glob('lib/*.a')`. -/
def libPath (dir name : String) : String := dir ++ "/lib/" ++ name

/-- The loop body of `extract_llvm_objects` (lines 99-109), over the list of
glob results: skip `.dll.a` import libraries; otherwise mkdir a scratch
subdirectory named after the archive's stem and run `ar x` there, aborting
on the first failure. -/
def extractLoop (env : Env) (m : Merger) (tmp dir : String) :
    List String → List Event × Except Err Unit
  | [] => ([], Except.ok ())
  | name :: rest =>
    if endsWithL name ".dll.a" then extractLoop env m tmp dir rest
    else
      match get_ar env m.system with
      | Except.error e =>
        ([Event.mkdir (tmp ++ "/" ++ get_stem m.system (libPath dir name))],
         Except.error e)
      | Except.ok a =>
        match run_command env [a, "x", libPath dir name]
            (some (tmp ++ "/" ++ get_stem m.system (libPath dir name))) with
        | (ev, Except.error e) =>
          (Event.mkdir (tmp ++ "/" ++ get_stem m.system (libPath dir name)) :: ev,
           Except.error e)
        | (ev, Except.ok _) =>
          match extractLoop env m tmp dir rest with
          | (ev2, r2) =>
            (Event.mkdir (tmp ++ "/" ++ get_stem m.system (libPath dir name)) ::
               (ev ++ ev2), r2)

/-- `extract_llvm_objects` (lines 95-109).  `glob('lib/*.a')` returns the
entries of the `lib` listing whose name ends in `.a`. -/
def extract_llvm_objects (env : Env) (m : Merger) (tmp dir : String) :
    List Event × Except Err Unit :=
  extractLoop env m tmp dir (env.libFiles.filter (fun n => endsWithL n ".a"))

/-- `_find_linux_std_lib` (lines 121-125): first `rglob` hit under
`/usr/lib/gcc`, `FileNotFoundError` when there is none. -/
def find_linux_std_lib (env : Env) : Except Err String :=
  match env.linuxStdLib with
  | some p => Except.ok p
  | none => Except.error Err.stdLibNotFound

/-- `_find_windows_std_lib` (lines 127-141): translate the MSYS2 path with
`cygpath` (its failure propagates), then test existence. -/
def find_windows_std_lib (env : Env) (system : String) : Except Err String :=
  match to_win_path env system "/mingw64/lib/libstdc++.a" with
  | Except.error e => Except.error e
  | Except.ok p =>
    if env.winStdLibExists p then Except.ok p
    else Except.error Err.stdLibNotFound

/-- `_find_std_library` (lines 111-119): `None` on Darwin, a found path on
Linux/Windows, `RuntimeError` elsewhere. -/
def find_std_library (env : Env) (system : String) : Except Err (Option String) :=
  if system = "Linux" then
    match find_linux_std_lib env with
    | Except.error e => Except.error e
    | Except.ok p => Except.ok (some p)
  else if system = "Windows" then
    match find_windows_std_lib env system with
    | Except.error e => Except.error e
    | Except.ok p => Except.ok (some p)
  else if system = "Darwin" then Except.ok none
  else Except.error (Err.unsupportedSystem system)

/-- `extract_std_objects` (lines 143-159): no-op on Darwin; every exception
raised by the lookup is caught and turned into a warning; extraction itself
(outside the `try`) is fatal on failure.  The `Except.ok none` branch is
unreachable (only Darwin yields `none`, and Darwin returned already). -/
def extract_std_objects (env : Env) (m : Merger) (tmp : String) :
    List Event × Except Err Unit :=
  if m.system = "Darwin" then ([], Except.ok ())
  else
    match find_std_library env m.system with
    | Except.error e => ([Event.warn (errMsg e)], Except.ok ())
    | Except.ok none => ([], Except.error Err.noneStem)
    | Except.ok (some std_lib) =>
      match get_ar env m.system with
      | Except.error e =>
        ([Event.mkdir (tmp ++ "/" ++ get_stem m.system std_lib)], Except.error e)
      | Except.ok a =>
        match run_command env [a, "x", std_lib]
            (some (tmp ++ "/" ++ get_stem m.system std_lib)) with
        | (ev, r) =>
          (Event.mkdir (tmp ++ "/" ++ get_stem m.system std_lib) :: ev, r)

/-- The events `merge_objects` performs before looking at the object list:
create the output's parent directory, delete a pre-existing output
(lines 165-170). -/
def mergeSetup (env : Env) (m : Merger) : List Event :=
  Event.mkdirParent m.output_lib ::
    (if env.outputExists then [Event.unlink m.output_lib] else [])

/-- The command of `_merge_direct` (lines 189-193). -/
def directCmd (env : Env) (m : Merger) : List String :=
  m.ar_cmd ++ [m.output_lib] ++ env.scan

/-- The command of `_merge_with_filelist` (lines 195-204). -/
def filelistCmd (env : Env) (m : Merger) : List String :=
  m.ar_cmd ++ [m.output_lib, "@" ++ env.tmpName]

/-- `_merge_direct` (lines 189-193). -/
def merge_direct (env : Env) (m : Merger) : List Event × Except Err Unit :=
  run_command env (directCmd env m) none

/-- Python's `sep.join(xs)`. -/
def joinSep (sep : String) : List String → String
  | [] => ""
  | [x] => x
  | x :: xs => x ++ sep ++ joinSep sep xs

/-- `_merge_with_filelist` (lines 195-204): write the object paths one per
line into a fresh named temporary file, run the archiver with `@file`, the
`with` block removing the file afterwards even on failure. -/
def merge_with_filelist (env : Env) (m : Merger) : List Event × Except Err Unit :=
  match run_command env (filelistCmd env m) none with
  | (ev, r) =>
    (Event.writeTemp env.tmpName (joinSep "\n" env.scan) ::
       (ev ++ [Event.removeTemp env.tmpName]), r)

/-- `_run_ranlib` (lines 206-209). -/
def run_ranlib (env : Env) (m : Merger) : List Event × Except Err Unit :=
  run_command env ["ranlib", m.output_lib] none

/-- `merge_objects` (lines 161-187): ensure the output's parent directory,
unlink a pre-existing output, scan for objects, fail when none, dispatch on
platform, then `ranlib`. -/
def merge_objects (env : Env) (m : Merger) : List Event × Except Err Unit :=
  if env.scan = [] then (mergeSetup env m, Except.error Err.noObjects)
  else
    match
      (if m.system = "Darwin" then merge_direct env m else merge_with_filelist env m)
    with
    | (ev, Except.error e) => (mergeSetup env m ++ ev, Except.error e)
    | (ev, Except.ok _) =>
      match run_ranlib env m with
      | (ev2, r2) => (mergeSetup env m ++ (ev ++ ev2), r2)

/-- `merge_libraries` (lines 211-223): inside a scoped temporary directory
(removed on every exit path), extract the standard library, extract the
LLVM archives, merge. -/
def merge_libraries (env : Env) (m : Merger) : List Event × Except Err Unit :=
  match extract_std_objects env m env.tmpDir with
  | (e1, Except.error e) =>
    (Event.mkTempDir env.tmpDir :: (e1 ++ [Event.rmTempDir env.tmpDir]),
     Except.error e)
  | (e1, Except.ok _) =>
    match extract_llvm_objects env m env.tmpDir m.llvm_dir with
    | (e2, Except.error e) =>
      (Event.mkTempDir env.tmpDir :: (e1 ++ e2 ++ [Event.rmTempDir env.tmpDir]),
       Except.error e)
    | (e2, Except.ok _) =>
      match merge_objects env m with
      | (e3, r3) =>
        (Event.mkTempDir env.tmpDir ::
           (e1 ++ e2 ++ e3 ++ [Event.rmTempDir env.tmpDir]), r3)

/-- `main` (lines 233-252): construct the merger and run the workflow; any
exception is logged and the process exits with status 1, otherwise 0. -/
def mainRun (env : Env) (system0 : String) (llvmDirValid : Bool)
    (output llvmDir : String) : List Event × Nat :=
  match initMerger env system0 llvmDirValid output llvmDir with
  | Except.error _ => ([], 1)
  | Except.ok m =>
    match merge_libraries env m with
    | (ev, Except.ok _) => (ev, 0)
    | (ev, Except.error _) => (ev, 1)

/-- A concrete healthy environment, used by the closed witness theorems. -/
def env0 : Env where
  runOk := fun _ _ => true
  cygpath := fun p => Except.ok p
  linuxStdLib := some "/usr/lib/gcc/x86_64-linux-gnu/13/libstdc++.a"
  winStdLibExists := fun _ => true
  libFiles := ["libclang.a"]
  scan := ["a.o"]
  outputExists := false
  tmpName := "/tmp/list"
  tmpDir := "/tmp/scratch"

/-- The merger state `__init__` builds on a healthy Linux host. -/
def mLinux : Merger := ⟨"Linux", ".o", ["ar", "-rcs"], "/out/lib.a", "/llvm"⟩

/-- `env0` with a lib directory holding `foo.dll.a` and `foo.a`. -/
def envC4 : Env := { env0 with libFiles := ["foo.dll.a", "foo.a"] }

/-- The merger state `__init__` builds on a healthy Windows/MSYS2 host with
an identity `cygpath`. -/
def mWin : Merger :=
  ⟨"Windows", ".obj", ["/mingw64/bin/ar.exe", "-rcs"], "/out/lib.a", "/llvm"⟩

/-- `env0` with no object files in the scratch area and a pre-existing
output archive. -/
def envC2 : Env := { env0 with scan := [], outputExists := true }

/-- `env0` where the Linux standard-library search comes up empty. -/
def envC5 : Env := { env0 with linuxStdLib := none }

/-- `env0` where every `cygpath` invocation fails. -/
def envC10 : Env := { env0 with cygpath := fun _ => Except.error () }

/-! ## Claims C1, C3, C6: platform resolution -/

/-- C1, counterexample: on Linux the archiver invocation built at startup is
`ar -rcs`, not `ar -qcs` as the spec states. -/
theorem C1_linux_flags_counterexample :
    get_ar_command env0 "Linux" = Except.ok ["ar", "-rcs"] ∧
    (["ar", "-rcs"] : List String) ≠ ["ar", "-qcs"] := by
  refine ⟨rfl, ?_⟩
  decide

/-- C1, amended: on Linux the platform profile's archiver invocation built at
startup is `ar` with flags `-rcs` (insert/create/build-symbol-table), for
every environment. -/
theorem C1_linux_archiver_is_ar_rcs (env : Env) :
    get_ar_command env "Linux" = Except.ok ["ar", "-rcs"] := rfl

/-- C3: the object-file extension selected at startup is `.obj` exactly when
the detected system is Windows or an MSYS-reported name (normalized to
Windows), and `.o` on every other system. -/
theorem C3_object_extension (sys0 : String) :
    get_obj_ext (normalizeSystem sys0) =
      if sys0 = "Windows" ∨ startsWithL sys0 "MSYS" then ".obj" else ".o" := by
  unfold normalizeSystem get_obj_ext
  by_cases h1 : startsWithL sys0 "MSYS"
  · simp [h1]
  · by_cases h2 : sys0 = "Windows" <;> simp [h1, h2]

/-- C6: for a detected operating system other than Linux, Windows
(MSYS-reported included) and macOS, initialization raises the
"unsupported platform" error, the run performs no side-effect event at all,
and the process exits with status 1. -/
theorem C6_unsupported_platform (env : Env) (sys0 out dir : String)
    (h1 : normalizeSystem sys0 ≠ "Linux")
    (h2 : normalizeSystem sys0 ≠ "Windows")
    (h3 : normalizeSystem sys0 ≠ "Darwin") :
    initMerger env sys0 true out dir =
      Except.error (Err.unsupportedSystem (normalizeSystem sys0)) ∧
    mainRun env sys0 true out dir = ([], 1) := by
  have hcmd : get_ar_command env (normalizeSystem sys0) =
      Except.error (Err.unsupportedSystem (normalizeSystem sys0)) := by
    unfold get_ar_command
    rw [if_neg h3, if_neg h2, if_neg h1]
  have hinit : initMerger env sys0 true out dir =
      Except.error (Err.unsupportedSystem (normalizeSystem sys0)) := by
    unfold initMerger
    rw [if_neg (by decide), hcmd]
  refine ⟨hinit, ?_⟩
  unfold mainRun
  rw [hinit]

/-- Witness for C6 at the concrete system name `FreeBSD`. -/
theorem C6_unsupported_platform_witness :
    initMerger env0 "FreeBSD" true "/out/lib.a" "/llvm" =
      Except.error (Err.unsupportedSystem "FreeBSD") ∧
    mainRun env0 "FreeBSD" true "/out/lib.a" "/llvm" = ([], 1) :=
  C6_unsupported_platform env0 "FreeBSD" "/out/lib.a" "/llvm"
    (by decide) (by decide) (by decide)

/-! ## Claim C9: the two stem computations -/

theorem takeWhile_eq_self_of {α : Type} {p : α → Bool} {l : List α}
    (h : ∀ x ∈ l, p x = true) : l.takeWhile p = l := by
  induction l with
  | nil => rfl
  | cons x xs ih =>
    have hx := h x (List.mem_cons_self x xs)
    have ih' := ih fun y hy => h y (List.mem_cons_of_mem x hy)
    simp [hx, ih']

theorem map_eq_self_of {α : Type} {f : α → α} {l : List α}
    (h : ∀ x ∈ l, f x = x) : l.map f = l := by
  induction l with
  | nil => rfl
  | cons x xs ih =>
    have hx := h x (List.mem_cons_self x xs)
    have ih' := ih fun y hy => h y (List.mem_cons_of_mem x hy)
    simp [hx, ih']

theorem not_mem_takeWhile_ne (c : Char) (l : List Char) :
    c ∉ l.takeWhile (fun x => x != c) := by
  intro hmem
  have h := List.mem_takeWhile_imp hmem
  simp at h

theorem count_takeWhile_ne (c : Char) (l : List Char) :
    (l.takeWhile (fun x => x != c)).count c = 0 :=
  List.count_eq_zero.mpr (not_mem_takeWhile_ne c l)

/-- A name holding at least two dots keeps a dot in its `pathlib` stem. -/
theorem dot_mem_pyStemL {l : List Char} (h : 2 ≤ l.count '.') :
    '.' ∈ pyStemL l := by
  have hmem : '.' ∈ l := List.count_pos_iff.mp (by omega)
  unfold pyStemL
  split
  · exact hmem
  · next c preRev hdrop =>
    split
    · exact hmem
    · next hcond =>
      apply List.mem_reverse.mpr
      have hsplit : l.reverse.takeWhile (fun x => x != '.') ++
          l.reverse.dropWhile (fun x => x != '.') = l.reverse :=
        List.takeWhile_append_dropWhile _ _
      have h1 : (l.reverse.takeWhile (fun x => x != '.')).count '.' +
          (l.reverse.dropWhile (fun x => x != '.')).count '.' = l.count '.' := by
        rw [← List.count_append, hsplit, List.count_reverse]
      rw [count_takeWhile_ne, hdrop, List.count_cons] at h1
      have hif : (if c == '.' then 1 else 0) ≤ 1 := by split <;> omega
      exact List.count_pos_iff.mp (by omega)

/-- The Windows stem of a name contains no dot. -/
theorem dot_not_mem_winStemL (l : List Char) : '.' ∉ winStemL l :=
  not_mem_takeWhile_ne '.' l

/-- C9: the scratch-subdirectory stem is platform-dependent: on Windows the
code takes the filename prefix before the first dot, elsewhere `pathlib`'s
stem (final extension removed), so for a filename with at least two dots the
two platforms derive different names. -/
theorem C9_stem_platform_dependent (sys name : String)
    (hsys : sys ≠ "Windows")
    (hsep : ∀ c ∈ name.data, c ≠ '/' ∧ c ≠ '\\')
    (hdots : 2 ≤ name.data.count '.') :
    get_stem "Windows" name ≠ get_stem sys name := by
  have hbase : basenameL name.data = name.data := by
    unfold basenameL
    rw [takeWhile_eq_self_of, List.reverse_reverse]
    intro x hx
    have hne := (hsep x (List.mem_reverse.mp hx)).1
    simp [hne]
  have hmap : name.data.map winSep = name.data :=
    map_eq_self_of fun x hx => by
      have hne := (hsep x hx).2
      simp [winSep, hne]
  have hW : get_stem "Windows" name = String.mk (winStemL name.data) := by
    unfold get_stem
    rw [if_neg (not_not_intro rfl), hmap, hbase]
  have hP : get_stem sys name = String.mk (pyStemL name.data) := by
    unfold get_stem pyStem
    rw [if_pos hsys, hbase]
  intro heq
  rw [hW, hP] at heq
  have hdata : winStemL name.data = pyStemL name.data :=
    congrArg String.data heq
  exact dot_not_mem_winStemL name.data (hdata ▸ dot_mem_pyStemL hdots)

/-- Witness for C9 at `libfoo.1.a`: `libfoo` on Windows vs `libfoo.1`
elsewhere. -/
theorem C9_stem_platform_dependent_witness :
    get_stem "Windows" "libfoo.1.a" ≠ get_stem "Linux" "libfoo.1.a" :=
  C9_stem_platform_dependent "Linux" "libfoo.1.a"
    (by decide) (by decide) (by decide)

/-! ## Claim C4: the extraction pass and import libraries -/

theorem libPath_inj {dir n n' : String} (h : libPath dir n = libPath dir n') :
    n = n' := by
  have hd := congrArg String.data h
  simp only [libPath, String.data_append] at hd
  exact String.ext (List.append_cancel_left hd)

/-- Step equation: an import library is skipped. -/
theorem extractLoop_cons_skip {env : Env} {m : Merger} {tmp dir name : String}
    {rest : List String} (hdll : endsWithL name ".dll.a" = true) :
    extractLoop env m tmp dir (name :: rest) = extractLoop env m tmp dir rest := by
  simp [extractLoop, hdll]

/-- Step equation: a kept archive whose extract command succeeds. -/
theorem extractLoop_cons_ok {env : Env} {m : Merger} {tmp dir name a : String}
    {rest : List String} (hdll : endsWithL name ".dll.a" = false)
    (ha : get_ar env m.system = Except.ok a)
    (hrun : env.runOk [a, "x", libPath dir name]
      (some (tmp ++ "/" ++ get_stem m.system (libPath dir name))) = true) :
    extractLoop env m tmp dir (name :: rest) =
      (Event.mkdir (tmp ++ "/" ++ get_stem m.system (libPath dir name)) ::
        ([Event.run [a, "x", libPath dir name]
            (some (tmp ++ "/" ++ get_stem m.system (libPath dir name)))] ++
          (extractLoop env m tmp dir rest).1),
       (extractLoop env m tmp dir rest).2) := by
  rcases hE : extractLoop env m tmp dir rest with ⟨ev2, r2⟩
  simp [extractLoop, hdll, ha, run_command, hrun, hE]

/-- Step equation: a kept archive whose extract command fails. -/
theorem extractLoop_cons_fail {env : Env} {m : Merger} {tmp dir name a : String}
    {rest : List String} (hdll : endsWithL name ".dll.a" = false)
    (ha : get_ar env m.system = Except.ok a)
    (hrun : env.runOk [a, "x", libPath dir name]
      (some (tmp ++ "/" ++ get_stem m.system (libPath dir name))) = false) :
    extractLoop env m tmp dir (name :: rest) =
      ([Event.mkdir (tmp ++ "/" ++ get_stem m.system (libPath dir name)),
        Event.run [a, "x", libPath dir name]
          (some (tmp ++ "/" ++ get_stem m.system (libPath dir name)))],
       Except.error (Err.cmdFailed [a, "x", libPath dir name])) := by
  simp [extractLoop, hdll, ha, run_command, hrun]

/-- With a resolved archiver and every external command succeeding, the
extraction loop returns success. -/
theorem extractLoop_ok {env : Env} {m : Merger} {tmp dir a : String}
    (hr : ∀ c w, env.runOk c w = true) (ha : get_ar env m.system = Except.ok a)
    (names : List String) :
    (extractLoop env m tmp dir names).2 = Except.ok () := by
  induction names with
  | nil => rfl
  | cons name rest ih =>
    by_cases hdll : endsWithL name ".dll.a"
    · rw [extractLoop_cons_skip hdll]; exact ih
    · rw [extractLoop_cons_ok (by simpa using hdll) ha (hr _ _)]
      exact ih

/-- Every `run` event the extraction loop emits is an `ar x` invocation on
the path of a listed archive that does not end in `.dll.a`. -/
theorem extractLoop_run_shape {env : Env} {m : Merger} {tmp dir a : String}
    (ha : get_ar env m.system = Except.ok a) (names : List String) :
    ∀ cmd cwd, Event.run cmd cwd ∈ (extractLoop env m tmp dir names).1 →
      ∃ n, n ∈ names ∧ endsWithL n ".dll.a" = false ∧
        cmd = [a, "x", libPath dir n] := by
  induction names with
  | nil => intro cmd cwd h; simp [extractLoop] at h
  | cons name rest ih =>
    intro cmd cwd h
    by_cases hdll : endsWithL name ".dll.a"
    · rw [extractLoop_cons_skip hdll] at h
      obtain ⟨n, hn, hnd, hc⟩ := ih cmd cwd h
      exact ⟨n, List.mem_cons_of_mem _ hn, hnd, hc⟩
    · have hdll' : endsWithL name ".dll.a" = false := by simpa using hdll
      cases hrun : env.runOk [a, "x", libPath dir name]
          (some (tmp ++ "/" ++ get_stem m.system (libPath dir name))) with
      | true =>
        rw [extractLoop_cons_ok hdll' ha hrun] at h
        rcases List.mem_cons.mp h with h0 | h
        · exact Event.noConfusion h0
        · rcases List.mem_append.mp h with h1 | h2
          · have := List.mem_singleton.mp h1
            injection this with hc _
            exact ⟨name, List.mem_cons_self _ _, hdll', hc⟩
          · obtain ⟨n, hn, hnd, hc⟩ := ih cmd cwd h2
            exact ⟨n, List.mem_cons_of_mem _ hn, hnd, hc⟩
      | false =>
        rw [extractLoop_cons_fail hdll' ha hrun] at h
        rcases List.mem_cons.mp h with h0 | h
        · exact Event.noConfusion h0
        · have := List.mem_singleton.mp h
          injection this with hc _
          exact ⟨name, List.mem_cons_self _ _, hdll', hc⟩

/-- With every command succeeding, every listed non-import archive is
extracted into the scratch subdirectory derived from its stem. -/
theorem extractLoop_extracts {env : Env} {m : Merger} {tmp dir a : String}
    (hr : ∀ c w, env.runOk c w = true) (ha : get_ar env m.system = Except.ok a)
    (names : List String) :
    ∀ n ∈ names, endsWithL n ".dll.a" = false →
      Event.run [a, "x", libPath dir n]
        (some (tmp ++ "/" ++ get_stem m.system (libPath dir n)))
        ∈ (extractLoop env m tmp dir names).1 := by
  induction names with
  | nil => intro n hn; simp at hn
  | cons name rest ih =>
    intro n hn hnd
    rcases List.mem_cons.mp hn with hn | hn
    · subst hn
      rw [extractLoop_cons_ok hnd ha (hr _ _)]
      exact List.mem_cons_of_mem _ (List.mem_append_left _ (List.mem_singleton.mpr rfl))
    · by_cases hdll : endsWithL name ".dll.a"
      · rw [extractLoop_cons_skip hdll]
        exact ih n hn hnd
      · rw [extractLoop_cons_ok (by simpa using hdll) ha (hr _ _)]
        exact List.mem_cons_of_mem _ (List.mem_append_right _ (ih n hn hnd))

/-- C4: every `lib/*.a` archive whose filename ends in `.dll.a` is skipped by
the extraction pass (no extract command is ever invoked on its path), while
every other `lib/*.a` archive is extracted into the scratch subdirectory
derived from its stem. -/
theorem C4_import_libraries_skipped (env : Env) (m : Merger) (tmp dir a : String)
    (hr : ∀ c w, env.runOk c w = true)
    (ha : get_ar env m.system = Except.ok a) :
    (extract_llvm_objects env m tmp dir).2 = Except.ok () ∧
    (∀ n cwd, endsWithL n ".dll.a" = true →
      Event.run [a, "x", libPath dir n] cwd ∉ (extract_llvm_objects env m tmp dir).1) ∧
    (∀ n ∈ env.libFiles, endsWithL n ".a" = true → endsWithL n ".dll.a" = false →
      Event.run [a, "x", libPath dir n]
        (some (tmp ++ "/" ++ get_stem m.system (libPath dir n)))
        ∈ (extract_llvm_objects env m tmp dir).1) := by
  refine ⟨extractLoop_ok hr ha _, ?_, ?_⟩
  · intro n cwd hdll hmem
    obtain ⟨n', hn', hn'd, hc⟩ := extractLoop_run_shape ha _ _ _ hmem
    have hpath : libPath dir n = libPath dir n' := by simpa using hc
    rw [libPath_inj hpath, hn'd] at hdll
    exact Bool.false_ne_true hdll
  · intro n hmem hsufa hdll
    exact extractLoop_extracts hr ha _ n
      (List.mem_filter.mpr ⟨hmem, hsufa⟩) hdll

/-- Witness for C4: a lib directory holding `foo.dll.a` and `foo.a`; only
`foo.a` is extracted. -/
theorem C4_import_libraries_skipped_witness :
    (extract_llvm_objects envC4 mLinux "/tmp/scratch" "/llvm").2 = Except.ok () ∧
    Event.run ["ar", "x", "/llvm/lib/foo.dll.a"] (some "/tmp/scratch/foo")
      ∉ (extract_llvm_objects envC4 mLinux "/tmp/scratch" "/llvm").1 ∧
    Event.run ["ar", "x", "/llvm/lib/foo.a"] (some "/tmp/scratch/foo")
      ∈ (extract_llvm_objects envC4 mLinux "/tmp/scratch" "/llvm").1 := by
  have h := C4_import_libraries_skipped envC4 mLinux "/tmp/scratch" "/llvm" "ar"
    (fun _ _ => rfl) rfl
  refine ⟨h.1, ?_, ?_⟩
  · have := h.2.1 "foo.dll.a" (some "/tmp/scratch/foo") (by decide)
    simpa using this
  · have := h.2.2 "foo.a" (by decide) (by decide) (by decide)
    simpa using this

/-! ## Helper lemmas about initialization and the phases -/

/-- A successful `__init__` pins down the merger's fields: the system is the
normalized detected one, the paths are the arguments, the archiver resolved,
and the archiver command is `[ar, -qcT]` or `[ar, -rcs]`. -/
theorem initMerger_ok {env : Env} {sys0 : String} {valid : Bool}
    {out dir : String} {m : Merger}
    (h : initMerger env sys0 valid out dir = Except.ok m) :
    m.system = normalizeSystem sys0 ∧ m.output_lib = out ∧ m.llvm_dir = dir ∧
    ∃ a, get_ar env m.system = Except.ok a ∧
      (m.ar_cmd = [a, "-qcT"] ∨ m.ar_cmd = [a, "-rcs"]) := by
  unfold initMerger at h
  by_cases hv : valid = false
  · rw [if_pos hv] at h
    exact absurd h (by simp)
  · rw [if_neg hv] at h
    cases hcmd : get_ar_command env (normalizeSystem sys0) with
    | error e => rw [hcmd] at h; exact absurd h (by simp)
    | ok cmd =>
      rw [hcmd] at h
      injection h with h
      subst h
      refine ⟨rfl, rfl, rfl, ?_⟩
      unfold get_ar_command at hcmd
      by_cases h1 : normalizeSystem sys0 = "Darwin"
      · rw [if_pos h1] at hcmd
        cases har : get_ar env (normalizeSystem sys0) with
        | error e => rw [har] at hcmd; exact absurd hcmd (by simp)
        | ok a =>
          rw [har] at hcmd
          injection hcmd with hcmd
          exact ⟨a, rfl, Or.inl hcmd.symm⟩
      · rw [if_neg h1] at hcmd
        by_cases h2 : normalizeSystem sys0 = "Windows"
        · rw [if_pos h2] at hcmd
          cases har : get_ar env (normalizeSystem sys0) with
          | error e => rw [har] at hcmd; exact absurd hcmd (by simp)
          | ok a =>
            rw [har] at hcmd
            injection hcmd with hcmd
            exact ⟨a, rfl, Or.inr hcmd.symm⟩
        · rw [if_neg h2] at hcmd
          by_cases h3 : normalizeSystem sys0 = "Linux"
          · rw [if_pos h3] at hcmd
            cases har : get_ar env (normalizeSystem sys0) with
            | error e => rw [har] at hcmd; exact absurd hcmd (by simp)
            | ok a =>
              rw [har] at hcmd
              injection hcmd with hcmd
              exact ⟨a, rfl, Or.inr hcmd.symm⟩
          · rw [if_neg h3] at hcmd
            exact absurd hcmd (by simp)

/-- Any exception thrown by the standard-library lookup is caught and
downgraded to a warning; the phase then reports success. -/
theorem extract_std_warn {env : Env} {m : Merger} {tmp : String} {e : Err}
    (hd : m.system ≠ "Darwin")
    (hfind : find_std_library env m.system = Except.error e) :
    extract_std_objects env m tmp = ([Event.warn (errMsg e)], Except.ok ()) := by
  unfold extract_std_objects
  rw [if_neg hd, hfind]

/-- On Darwin the lookup returns `None` rather than throwing. -/
theorem find_std_library_darwin (env : Env) :
    find_std_library env "Darwin" = Except.ok none := by
  unfold find_std_library
  rw [if_neg (by decide), if_neg (by decide), if_pos rfl]

/-- With no objects in the scratch area, the merge step deletes a
pre-existing output and raises before invoking any command. -/
theorem merge_objects_empty {env : Env} {m : Merger} (h : env.scan = []) :
    merge_objects env m = (mergeSetup env m, Except.error Err.noObjects) := by
  unfold merge_objects
  rw [if_pos h]

/-- With objects present and all external commands succeeding, the merge
step succeeds. -/
theorem merge_objects_ok {env : Env} {m : Merger}
    (hr : ∀ c w, env.runOk c w = true) (hscan : env.scan ≠ []) :
    (merge_objects env m).2 = Except.ok () := by
  unfold merge_objects
  rw [if_neg hscan]
  by_cases hd : m.system = "Darwin"
  · simp [hd, merge_direct, run_command, hr, run_ranlib]
  · simp [hd, merge_with_filelist, run_command, hr, run_ranlib]

/-- `main` with a successfully constructed merger. -/
theorem mainRun_ok_eq {env : Env} {sys0 : String} {valid : Bool}
    {out dir : String} {m : Merger}
    (hinit : initMerger env sys0 valid out dir = Except.ok m) :
    mainRun env sys0 valid out dir =
      (match merge_libraries env m with
       | (ev, Except.ok _) => (ev, 0)
       | (ev, Except.error _) => (ev, 1)) := by
  unfold mainRun
  rw [hinit]

/-- `merge_libraries` when the standard-library phase throws. -/
theorem merge_libraries_std_err {env : Env} {m : Merger} {e1 : List Event}
    {e : Err} (h1 : extract_std_objects env m env.tmpDir = (e1, Except.error e)) :
    merge_libraries env m =
      (Event.mkTempDir env.tmpDir :: (e1 ++ [Event.rmTempDir env.tmpDir]),
       Except.error e) := by
  unfold merge_libraries
  rw [h1]

/-- `merge_libraries` when the LLVM extraction phase throws. -/
theorem merge_libraries_llvm_err {env : Env} {m : Merger} {e1 e2 : List Event}
    {u : Unit} {e : Err}
    (h1 : extract_std_objects env m env.tmpDir = (e1, Except.ok u))
    (h2 : extract_llvm_objects env m env.tmpDir m.llvm_dir = (e2, Except.error e)) :
    merge_libraries env m =
      (Event.mkTempDir env.tmpDir :: (e1 ++ e2 ++ [Event.rmTempDir env.tmpDir]),
       Except.error e) := by
  unfold merge_libraries
  rw [h1, h2]

/-- `merge_libraries` when both extraction phases succeed. -/
theorem merge_libraries_events {env : Env} {m : Merger} {e1 e2 : List Event}
    {u v : Unit}
    (h1 : extract_std_objects env m env.tmpDir = (e1, Except.ok u))
    (h2 : extract_llvm_objects env m env.tmpDir m.llvm_dir = (e2, Except.ok v)) :
    merge_libraries env m =
      (Event.mkTempDir env.tmpDir ::
         (e1 ++ e2 ++ (merge_objects env m).1 ++ [Event.rmTempDir env.tmpDir]),
       (merge_objects env m).2) := by
  unfold merge_libraries
  rw [h1, h2]

/-! ## Claim C2: empty object set -/

/-- C2, counterexample to "a pre-existing file at the output path is left
untouched": with zero object files and a pre-existing output archive, the
run deletes the output file (and exits 1). -/
theorem C2_preexisting_output_deleted_counterexample :
    Event.unlink "/out/lib.a" ∈ (mainRun envC2 "Linux" true "/out/lib.a" "/llvm").1 ∧
    (mainRun envC2 "Linux" true "/out/lib.a" "/llvm").2 = 1 := by
  constructor
  · decide
  · rfl

/-- C2, amended: with zero object files found after extraction, the merge
step raises the fatal empty-result error, invokes no external command of its
own (so no output archive is created), and the process exits 1; however the
output path is not left untouched: a pre-existing file there has already
been deleted when the error is raised. -/
theorem C2_empty_objects_fatal (env : Env) (sys0 out dir : String) (m : Merger)
    (hinit : initMerger env sys0 true out dir = Except.ok m)
    (hscan : env.scan = []) :
    merge_objects env m =
      (Event.mkdirParent m.output_lib ::
         (if env.outputExists then [Event.unlink m.output_lib] else []),
       Except.error Err.noObjects) ∧
    (∀ cmd cwd, Event.run cmd cwd ∉ (merge_objects env m).1) ∧
    (mainRun env sys0 true out dir).2 = 1 := by
  have h1 := merge_objects_empty (m := m) hscan
  refine ⟨h1, ?_, ?_⟩
  · intro cmd cwd hmem
    rw [h1] at hmem
    rcases List.mem_cons.mp hmem with h0 | h0
    · exact Event.noConfusion h0
    · by_cases ho : env.outputExists
      · rw [if_pos ho] at h0
        have := List.mem_singleton.mp h0
        exact Event.noConfusion this
      · rw [if_neg ho] at h0
        simp at h0
  · rw [mainRun_ok_eq hinit]
    rcases hE1 : extract_std_objects env m env.tmpDir with ⟨e1, r1⟩
    cases r1 with
    | error e => rw [merge_libraries_std_err hE1]
    | ok u =>
      rcases hE2 : extract_llvm_objects env m env.tmpDir m.llvm_dir with ⟨e2, r2⟩
      cases r2 with
      | error e => rw [merge_libraries_llvm_err hE1 hE2]
      | ok v =>
        rw [merge_libraries_events hE1 hE2, h1]

/-- Witness for C2's amended statement at a concrete run. -/
theorem C2_empty_objects_fatal_witness :
    merge_objects envC2 mLinux =
      ([Event.mkdirParent "/out/lib.a", Event.unlink "/out/lib.a"],
       Except.error Err.noObjects) ∧
    (mainRun envC2 "Linux" true "/out/lib.a" "/llvm").2 = 1 := by
  have h := C2_empty_objects_fatal envC2 "Linux" "/out/lib.a" "/llvm" mLinux rfl rfl
  exact ⟨h.1, h.2.2⟩

/-! ## Claim C5: standard-library lookup failure is non-fatal -/

/-- C5: when the standard-library lookup fails with the not-found error, the
failure is downgraded to a logged warning and, provided the scratch scan
found at least one object file and the external commands succeed, the whole
run completes with exit status 0. -/
theorem C5_std_lookup_nonfatal (env : Env) (sys0 out dir : String) (m : Merger)
    (hinit : initMerger env sys0 true out dir = Except.ok m)
    (hfind : find_std_library env m.system = Except.error Err.stdLibNotFound)
    (hscan : env.scan ≠ [])
    (hr : ∀ c w, env.runOk c w = true) :
    (mainRun env sys0 true out dir).2 = 0 ∧
    Event.warn (errMsg Err.stdLibNotFound) ∈ (mainRun env sys0 true out dir).1 := by
  have hd : m.system ≠ "Darwin" := by
    intro hdar
    rw [hdar, find_std_library_darwin] at hfind
    exact Except.noConfusion hfind
  obtain ⟨-, -, -, a, ha, -⟩ := initMerger_ok hinit
  have hstd : extract_std_objects env m env.tmpDir =
      ([Event.warn (errMsg Err.stdLibNotFound)], Except.ok ()) :=
    extract_std_warn hd hfind
  have hll : (extract_llvm_objects env m env.tmpDir m.llvm_dir).2 =
      Except.ok () := extractLoop_ok hr ha _
  have hm := merge_objects_ok (m := m) hr hscan
  have h2 : extract_llvm_objects env m env.tmpDir m.llvm_dir =
      ((extract_llvm_objects env m env.tmpDir m.llvm_dir).1, Except.ok ()) := by
    rw [← hll]
  rw [mainRun_ok_eq hinit, merge_libraries_events hstd h2, hm]
  constructor
  · rfl
  · simp

/-- Witness for C5 on a Linux run whose `/usr/lib/gcc` search is empty. -/
theorem C5_std_lookup_nonfatal_witness :
    (mainRun envC5 "Linux" true "/out/lib.a" "/llvm").2 = 0 ∧
    Event.warn (errMsg Err.stdLibNotFound)
      ∈ (mainRun envC5 "Linux" true "/out/lib.a" "/llvm").1 :=
  C5_std_lookup_nonfatal envC5 "Linux" "/out/lib.a" "/llvm" mLinux rfl rfl
    (by decide) (fun _ _ => rfl)

/-! ## Claim C7: merge strategy dispatch -/

/-- C7: the merge step dispatches on platform: on Darwin the archiver is
invoked once with the whole object list appended to the command line; on any
other system the object paths are written one per line into a fresh
temporary file, the archiver is invoked with the single `@file` argument
(the write strictly before the invocation), and the file is removed
afterward, whether or not the invocation succeeded. -/
theorem C7_merge_strategy_dispatch (env : Env) (m : Merger)
    (hscan : env.scan ≠ []) :
    (m.system = "Darwin" →
      (merge_objects env m).1 =
        mergeSetup env m ++
          (Event.run (m.ar_cmd ++ [m.output_lib] ++ env.scan) none ::
            (if env.runOk (directCmd env m) none then
              [Event.run ["ranlib", m.output_lib] none] else []))) ∧
    (m.system ≠ "Darwin" →
      (merge_objects env m).1 =
        mergeSetup env m ++
          (Event.writeTemp env.tmpName (joinSep "\n" env.scan) ::
            Event.run (m.ar_cmd ++ [m.output_lib, "@" ++ env.tmpName]) none ::
            Event.removeTemp env.tmpName ::
            (if env.runOk (filelistCmd env m) none then
              [Event.run ["ranlib", m.output_lib] none] else []))) := by
  constructor
  · intro hd
    cases hrun : env.runOk (directCmd env m) none with
    | true =>
      simp [directCmd] at hrun
      simp [merge_objects, hscan, hd, merge_direct, run_command, hrun,
        run_ranlib, directCmd]
    | false =>
      simp [directCmd] at hrun
      simp [merge_objects, hscan, hd, merge_direct, run_command, hrun, directCmd]
  · intro hd
    cases hrun : env.runOk (filelistCmd env m) none with
    | true =>
      simp [filelistCmd] at hrun
      simp [merge_objects, hscan, hd, merge_with_filelist, run_command, hrun,
        run_ranlib, filelistCmd]
    | false =>
      simp [filelistCmd] at hrun
      simp [merge_objects, hscan, hd, merge_with_filelist, run_command, hrun,
        filelistCmd]

/-- Witness for C7 on a concrete Linux merge of one object. -/
theorem C7_merge_strategy_dispatch_witness :
    (merge_objects env0 mLinux).1 =
      [Event.mkdirParent "/out/lib.a",
       Event.writeTemp "/tmp/list" "a.o",
       Event.run ["ar", "-rcs", "/out/lib.a", "@/tmp/list"] none,
       Event.removeTemp "/tmp/list",
       Event.run ["ranlib", "/out/lib.a"] none] := by
  have h := (C7_merge_strategy_dispatch env0 mLinux (by decide)).2 (by decide)
  simpa [mergeSetup, filelistCmd, joinSep, env0, mLinux] using h

/-! ## Claim C8: ranlib strictly after a successful merge -/

/-- C8: whenever the merge step succeeds, its event trace ends with the
`ranlib` invocation on the output path, and the merge command itself sits
strictly earlier in the trace; whenever the merge command fails, `ranlib` is
never invoked. -/
theorem C8_ranlib_after_merge (env : Env) (sys0 out dir : String) (m : Merger)
    (hinit : initMerger env sys0 true out dir = Except.ok m)
    (hscan : env.scan ≠ []) :
    ((merge_objects env m).2 = Except.ok () →
      ∃ pre, (merge_objects env m).1 =
          pre ++ [Event.run ["ranlib", m.output_lib] none] ∧
        Event.run (if m.system = "Darwin" then directCmd env m
            else filelistCmd env m) none ∈ pre) ∧
    (env.runOk (if m.system = "Darwin" then directCmd env m
        else filelistCmd env m) none = false →
      ∀ cwd, Event.run ["ranlib", m.output_lib] cwd ∉ (merge_objects env m).1) := by
  obtain ⟨-, -, -, a, -, hcmd⟩ := initMerger_ok hinit
  have hlen : m.ar_cmd.length = 2 := by rcases hcmd with h | h <;> simp [h]
  have hpos : 0 < env.scan.length := List.length_pos.mpr hscan
  constructor
  · intro hok
    by_cases hd : m.system = "Darwin"
    · rw [if_pos hd]
      cases hrun : env.runOk (directCmd env m) none with
      | false =>
        exfalso
        have hbad : (merge_objects env m).2 =
            Except.error (Err.cmdFailed (directCmd env m)) := by
          simp [merge_objects, hscan, hd, merge_direct, run_command, hrun]
        rw [hbad] at hok
        exact Except.noConfusion hok
      | true =>
        refine ⟨mergeSetup env m ++ [Event.run (directCmd env m) none], ?_, ?_⟩
        · simp [merge_objects, hscan, hd, merge_direct, run_command, hrun,
            run_ranlib]
        · simp
    · rw [if_neg hd]
      cases hrun : env.runOk (filelistCmd env m) none with
      | false =>
        exfalso
        have hbad : (merge_objects env m).2 =
            Except.error (Err.cmdFailed (filelistCmd env m)) := by
          simp [merge_objects, hscan, hd, merge_with_filelist, run_command, hrun]
        rw [hbad] at hok
        exact Except.noConfusion hok
      | true =>
        refine ⟨mergeSetup env m ++
          [Event.writeTemp env.tmpName (joinSep "\n" env.scan),
           Event.run (filelistCmd env m) none,
           Event.removeTemp env.tmpName], ?_, ?_⟩
        · simp [merge_objects, hscan, hd, merge_with_filelist, run_command, hrun,
            run_ranlib]
        · simp
  · intro hrun cwd hmem
    by_cases hd : m.system = "Darwin"
    · rw [if_pos hd] at hrun
      have hev : (merge_objects env m).1 =
          mergeSetup env m ++ [Event.run (directCmd env m) none] := by
        simp [merge_objects, hscan, hd, merge_direct, run_command, hrun]
      rw [hev] at hmem
      rcases List.mem_append.mp hmem with h0 | h0
      · rcases List.mem_cons.mp h0 with h1 | h1
        · exact Event.noConfusion h1
        · by_cases ho : env.outputExists
          · rw [if_pos ho] at h1
            exact Event.noConfusion (List.mem_singleton.mp h1)
          · rw [if_neg ho] at h1
            simp at h1
      · have h1 := List.mem_singleton.mp h0
        injection h1 with hc _
        have hlc := congrArg List.length hc
        simp [directCmd, hlen] at hlc
    · rw [if_neg hd] at hrun
      have hev : (merge_objects env m).1 =
          mergeSetup env m ++
            [Event.writeTemp env.tmpName (joinSep "\n" env.scan),
             Event.run (filelistCmd env m) none,
             Event.removeTemp env.tmpName] := by
        simp [merge_objects, hscan, hd, merge_with_filelist, run_command, hrun]
      rw [hev] at hmem
      rcases List.mem_append.mp hmem with h0 | h0
      · rcases List.mem_cons.mp h0 with h1 | h1
        · exact Event.noConfusion h1
        · by_cases ho : env.outputExists
          · rw [if_pos ho] at h1
            exact Event.noConfusion (List.mem_singleton.mp h1)
          · rw [if_neg ho] at h1
            simp at h1
      · rcases List.mem_cons.mp h0 with h1 | h0
        · exact Event.noConfusion h1
        · rcases List.mem_cons.mp h0 with h1 | h0
          · injection h1 with hc _
            have hlc := congrArg List.length hc
            simp [filelistCmd, hlen] at hlc
          · exact Event.noConfusion (List.mem_singleton.mp h0)

/-- Witness for C8 on a concrete successful Linux merge. -/
theorem C8_ranlib_after_merge_witness :
    ∃ pre, (merge_objects env0 mLinux).1 =
        pre ++ [Event.run ["ranlib", "/out/lib.a"] none] ∧
      Event.run ["ar", "-rcs", "/out/lib.a", "@/tmp/list"] none ∈ pre := by
  have h := (C8_ranlib_after_merge env0 "Linux" "/out/lib.a" "/llvm" mLinux rfl
    (by decide)).1 rfl
  simpa [filelistCmd, env0, mLinux] using h

/-! ## Claim C10: the lookup try/except is a catch-all -/

/-- C10: the warning-downgrade around the standard-library lookup catches
every exception the lookup raises, not only the not-found one — on Windows a
`cygpath` failure during the lookup is downgraded to a warning and the run
continues — whereas a failure of the extraction command itself, after a
successful lookup, remains fatal. -/
theorem C10_lookup_catchall (env : Env) (m : Merger) (tmp : String) :
    (∀ e, m.system ≠ "Darwin" →
      find_std_library env m.system = Except.error e →
      extract_std_objects env m tmp = ([Event.warn (errMsg e)], Except.ok ())) ∧
    (m.system = "Windows" →
      env.cygpath "/mingw64/lib/libstdc++.a" = Except.error () →
      extract_std_objects env m tmp =
        ([Event.warn (errMsg (Err.cygpathFailed "/mingw64/lib/libstdc++.a"))],
         Except.ok ())) ∧
    (∀ p a, find_std_library env m.system = Except.ok (some p) →
      get_ar env m.system = Except.ok a →
      env.runOk [a, "x", p] (some (tmp ++ "/" ++ get_stem m.system p)) = false →
      (extract_std_objects env m tmp).2 =
        Except.error (Err.cmdFailed [a, "x", p])) := by
  refine ⟨fun e hd hf => extract_std_warn hd hf, ?_, ?_⟩
  · intro hw hcyg
    have hfind : find_std_library env m.system =
        Except.error (Err.cygpathFailed "/mingw64/lib/libstdc++.a") := by
      rw [hw]
      unfold find_std_library
      rw [if_neg (by decide), if_pos rfl]
      unfold find_windows_std_lib to_win_path
      rw [if_neg (not_not_intro rfl), hcyg]
    exact extract_std_warn (by rw [hw]; decide) hfind
  · intro p a hfind ha hrun
    have hd : m.system ≠ "Darwin" := by
      intro hdar
      rw [hdar, find_std_library_darwin] at hfind
      injection hfind with h
      exact Option.noConfusion h
    unfold extract_std_objects
    rw [if_neg hd, hfind, ha]
    simp [run_command, hrun]

/-- Witness for C10: on Windows with a failing `cygpath`, the lookup failure
is downgraded to a warning and the phase succeeds. -/
theorem C10_lookup_catchall_witness :
    extract_std_objects envC10 mWin "/tmp/scratch" =
      ([Event.warn (errMsg (Err.cygpathFailed "/mingw64/lib/libstdc++.a"))],
       Except.ok ()) :=
  (C10_lookup_catchall envC10 mWin "/tmp/scratch").2.1 rfl rfl

end LibclangStatic
